import Mathlib

/-!
Shallow embedding of the argocd-book-plugin booking backend.

The Go sources embedded here:
- `src/backend/internal/k8s/client.go`: annotation-based lock state on ArgoCD
  Application custom resources (`GetBookingStatus`, `BookApp`, `UnbookApp`,
  `ListBookings`, `extractBooking`).
- `src/backend/internal/handler/handler.go`: the HTTP layer (`parseAppHeader`,
  `Status`, `Book`, `Unbook`, `List`).

The external Kubernetes store is modelled as a list of Application objects,
each carrying its namespace, name and an optional annotation map (Go's
`map[string]string`, `nil` when absent, modelled as `Option` of an
association list).  A JSON merge patch on the two booking annotations is
modelled as an explicit update of that association list; every coordinator
operation returns, together with its `error` result, the post-state of the
store and the number of patch calls it issued, so that "no write was
attempted" is expressible.  `time.Now().UTC().Format(time.RFC3339)` is
modelled by passing the formatted timestamp string `now` as an explicit
argument: the value written during a call *is* the call's execution time.
-/

namespace ArgoBook

/-- Source constant `AnnotationBookedBy = "booking.argocd.io/booked-by"`. -/
def AnnBookedBy : String := "booking.argocd.io/booked-by"

/-- Source constant `AnnotationBookedAt = "booking.argocd.io/booked-at"`. -/
def AnnBookedAt : String := "booking.argocd.io/booked-at"

/-- Go's `map[string]string` modelled as an association list
(first binding of a key wins on lookup). -/
abbrev AnnMap := List (String × String)

/-- Go map indexing `m[k]`: the zero value `""` when the key is absent. -/
def annLookup : AnnMap → String → String
  | [], _ => ""
  | p :: rest, k => if p.1 = k then p.2 else annLookup rest k

/-- Go map assignment `m[k] = v`: replace the binding of `k`, or append it. -/
def annSet : AnnMap → String → String → AnnMap
  | [], k, v => [(k, v)]
  | p :: rest, k, v => if p.1 = k then (k, v) :: rest else p :: annSet rest k v

/-- JSON merge-patch `"k": null` / Go map deletion: every binding of the key
is removed from the map. -/
def annRemove : AnnMap → String → AnnMap
  | [], _ => []
  | p :: rest, k => if p.1 = k then annRemove rest k else p :: annRemove rest k

/-- An ArgoCD Application custom resource, reduced to the parts the booking
backend reads: its name, namespace, and annotation map (`nil` possible,
as returned by `app.GetAnnotations()`). -/
structure K8sApp where
  name : String
  ns : String
  anns : Option AnnMap
  deriving DecidableEq, Repr

/-- The external store: the Application objects the dynamic client serves. -/
abbrev Store := List K8sApp

/-- `dynamic.Resource(gvr).Namespace(ns).Get(ctx, name, ...)`: the first
object with the requested namespace and name, or an error (`none`). -/
def getApp : Store → String → String → Option K8sApp
  | [], _, _ => none
  | a :: rest, ns, n => if a.ns = ns ∧ a.name = n then some a else getApp rest ns n

/-- A JSON merge patch against `(ns, n)`: every stored object with that
identity has its annotation map rewritten by `f`. -/
def patchApp (st : Store) (ns n : String) (f : Option AnnMap → Option AnnMap) : Store :=
  st.map (fun a => if a.ns = ns ∧ a.name = n then ⟨a.name, a.ns, f a.anns⟩ else a)

/-- The `error` values the client functions produce, keeping the data that
`fmt.Errorf` interpolates into the message. -/
inductive K8sError where
  /-- `fmt.Errorf("failed to get application %s/%s: %w", ...)` — the wrapped
  store error of a failed `Get`. -/
  | getFailed (ns n : String)
  /-- `fmt.Errorf("conflict: application already booked by %s", bookedBy)`. -/
  | conflict (holder : String)
  /-- `fmt.Errorf("forbidden: application is booked by %s, only they or an
  admin can unbook", bookedBy)`. -/
  | forbidden (holder : String)
  deriving DecidableEq, Repr

/-- `err.Error()`: the message `fmt.Errorf` formats for each error. -/
def errString : K8sError → String
  | .getFailed ns n => "failed to get application " ++ ns ++ "/" ++ n ++ ": not found"
  | .conflict holder => "conflict: application already booked by " ++ holder
  | .forbidden holder =>
      "forbidden: application is booked by " ++ holder ++ ", only they or an admin can unbook"

/-- `GetBookingStatus` (client.go:66-84): fetch the Application, return
`("", zero)` when annotations are nil or the booked-by annotation is empty,
otherwise the booked-by annotation and the booked-at annotation (the Go code
parses the latter with `time.Parse`, discarding the parse error; the model
keeps the raw RFC3339 string, which is all later code compares). -/
def GetBookingStatus (st : Store) (ns appName : String) : Except K8sError (String × String) :=
  match getApp st ns appName with
  | none => .error (.getFailed ns appName)
  | some app =>
    match app.anns with
    | none => .ok ("", "")
    | some m =>
      let bookedBy := annLookup m AnnBookedBy
      if bookedBy = "" then .ok ("", "")
      else .ok (bookedBy, annLookup m AnnBookedAt)

instance {ε α : Type} [DecidableEq ε] [DecidableEq α] : DecidableEq (Except ε α) := fun a b =>
  match a, b with
  | .ok x, .ok y =>
      if h : x = y then isTrue (by rw [h])
      else isFalse (fun hh => h (by injection hh))
  | .ok _, .error _ => isFalse (fun h => Except.noConfusion h)
  | .error _, .ok _ => isFalse (fun h => Except.noConfusion h)
  | .error e, .error f =>
      if h : e = f then isTrue (by rw [h])
      else isFalse (fun hh => h (by injection hh))

/-- Outcome of a state-changing client call: the returned `error` (`.ok ()`
for `nil`), the store after the call, and how many Patch calls were issued. -/
structure OpResult where
  result : Except K8sError Unit
  store : Store
  patchCount : Nat
  deriving DecidableEq, Repr

/-- `BookApp` (client.go:86-119): read the current status; conflict when the
holder is a different non-empty user; no-op when the caller already holds it;
otherwise merge-patch both booking annotations (`booked-by := username`,
`booked-at := now`). -/
def BookApp (st : Store) (ns appName username now : String) : OpResult :=
  match GetBookingStatus st ns appName with
  | .error e => ⟨.error e, st, 0⟩
  | .ok (bookedBy, _) =>
    if bookedBy ≠ "" ∧ bookedBy ≠ username then ⟨.error (.conflict bookedBy), st, 0⟩
    else if bookedBy = username then ⟨.ok (), st, 0⟩
    else
      ⟨.ok (),
       patchApp st ns appName
         (fun anns => some (annSet (annSet (anns.getD []) AnnBookedBy username) AnnBookedAt now)),
       1⟩

/-- `UnbookApp` (client.go:121-142): read the current status; no-op when not
booked; forbidden when the caller is neither the holder nor an admin;
otherwise merge-patch both booking annotations to `null` (removal). -/
def UnbookApp (st : Store) (ns appName username : String) (isAdmin : Bool) : OpResult :=
  match GetBookingStatus st ns appName with
  | .error e => ⟨.error e, st, 0⟩
  | .ok (bookedBy, _) =>
    if bookedBy = "" then ⟨.ok (), st, 0⟩
    else if bookedBy ≠ username ∧ isAdmin = false then ⟨.error (.forbidden bookedBy), st, 0⟩
    else
      ⟨.ok (),
       patchApp st ns appName
         (fun anns => some (annRemove (annRemove (anns.getD []) AnnBookedBy) AnnBookedAt)),
       1⟩

/-- The `Booking` record (client.go:29-34). -/
structure Booking where
  appName : String
  ns : String
  bookedBy : String
  bookedAt : String
  deriving DecidableEq, Repr

/-- `extractBooking` (client.go:160-175): `nil` when annotations are nil or
the booked-by annotation is empty, otherwise the booking record with the raw
booked-at annotation string. -/
def extractBooking (a : K8sApp) : Option Booking :=
  match a.anns with
  | none => none
  | some m =>
    let bookedBy := annLookup m AnnBookedBy
    if bookedBy = "" then none
    else some ⟨a.name, a.ns, bookedBy, annLookup m AnnBookedAt⟩

/-- `append(bookings, b)` on a Go slice: a nil slice (`none`) becomes a
one-element slice. -/
def goAppend (s : Option (List Booking)) (b : Booking) : Option (List Booking) :=
  match s with
  | none => some [b]
  | some l => some (l ++ [b])

/-- `ListBookings` (client.go:144-158): list the Applications of the
namespace and keep those `extractBooking` accepts.  The result is a Go slice:
`none` is the nil slice `var bookings []Booking` left untouched by the loop. -/
def ListBookings (st : Store) (ns : String) : Option (List Booking) :=
  (st.filter (fun a => a.ns == ns)).foldl
    (fun acc item =>
      match extractBooking item with
      | some b => goAppend acc b
      | none => acc)
    none

/-! ## HTTP handler layer (handler.go) -/

/-- `strings.SplitN(raw, ":", 2)` at the character level: split at the first
colon, `none` when the string holds no colon (Go then returns a one-element
slice, which `parseAppHeader` rejects). -/
def splitFirstColon : List Char → Option (List Char × List Char)
  | [] => none
  | c :: rest =>
    if c = ':' then some ([], rest)
    else
      match splitFirstColon rest with
      | some (pre, post) => some (c :: pre, post)
      | none => none

/-- `parseAppHeader` (handler.go:50-60): the `Argocd-Application-Name` header
value must be non-empty and of the form `namespace:appname` with both parts
non-empty (split at the first colon); `r.Header.Get` yields `""` for an
absent header, and `raw == ""` is the test `raw.data = []`. -/
def parseAppHeader (raw : String) : Option (String × String) :=
  if raw.data = [] then none
  else
    match splitFirstColon raw.data with
    | none => none
    | some (a, b) =>
      if a = [] ∨ b = [] then none else some (String.mk a, String.mk b)

/-- Source constant `adminGroup = "admin"` (handler.go:17). -/
def adminGroup : String := "admin"

/-- `isAdmin` (handler.go:62-70): split the `Argocd-User-Groups` header on
commas and look for the admin group after trimming whitespace. -/
def isAdminReq (groups : String) : Bool :=
  (groups.splitOn ",").any (fun g => g.trim == adminGroup)

/-- `strings.Contains(s, sub)` for a non-empty `sub`: splitting on the
substring yields more than one piece exactly when it occurs. -/
def goContains (s sub : String) : Bool :=
  (s.splitOn sub).length != 1

/-- The inbound request signals the handlers read: the three ArgoCD proxy
headers (`""` models an absent header, as `r.Header.Get` returns). -/
structure HttpReq where
  appHeader : String
  userHeader : String
  groupsHeader : String
  deriving DecidableEq, Repr

/-- What a handler did with a request: the HTTP status it wrote and whether
it invoked the k8s client at all. -/
structure HResp where
  status : Nat
  clientCalled : Bool
  deriving DecidableEq, Repr

/-- `Status` (handler.go:85-105): 400 on a bad application header, otherwise
500 on a client error and 200 on success. -/
def statusHandler (st : Store) (r : HttpReq) : HResp :=
  match parseAppHeader r.appHeader with
  | none => ⟨400, false⟩
  | some (ns, app) =>
    match GetBookingStatus st ns app with
    | .error _ => ⟨500, true⟩
    | .ok _ => ⟨200, true⟩

/-- `Book` (handler.go:108-133): 400 on a bad application header or an empty
username header; otherwise call `BookApp` and map a `conflict:` error to 409,
any other error to 500, success to 200. -/
def bookHandler (st : Store) (r : HttpReq) (now : String) : HResp :=
  match parseAppHeader r.appHeader with
  | none => ⟨400, false⟩
  | some (ns, app) =>
    if r.userHeader = "" then ⟨400, false⟩
    else
      match (BookApp st ns app r.userHeader now).result with
      | .error e => if goContains (errString e) "conflict:" then ⟨409, true⟩ else ⟨500, true⟩
      | .ok _ => ⟨200, true⟩

/-- `Unbook` (handler.go:136-161): 400 on a bad application header or an
empty username header; otherwise call `UnbookApp` (privilege from the groups
header) and map a `forbidden:` error to 403, any other error to 500,
success to 200. -/
def unbookHandler (st : Store) (r : HttpReq) : HResp :=
  match parseAppHeader r.appHeader with
  | none => ⟨400, false⟩
  | some (ns, app) =>
    if r.userHeader = "" then ⟨400, false⟩
    else
      match (UnbookApp st ns app r.userHeader (isAdminReq r.groupsHeader)).result with
      | .error e => if goContains (errString e) "forbidden:" then ⟨403, true⟩ else ⟨500, true⟩
      | .ok _ => ⟨200, true⟩

/-- `encoding/json` rendering of one `Booking` (field names from the struct
tags in client.go:29-34; the model quotes values verbatim, which is exact for
the identifier and RFC3339 strings the backend stores). -/
def jsonOfBooking (b : Booking) : String :=
  "\x7b\"appName\":\"" ++ b.appName ++ "\",\"namespace\":\"" ++ b.ns ++
    "\",\"bookedBy\":\"" ++ b.bookedBy ++ "\",\"bookedAt\":\"" ++ b.bookedAt ++ "\"\x7d"

/-- `encoding/json` rendering of a `[]k8s.Booking` value: the nil slice
encodes as `null`, a non-nil slice as a JSON array. -/
def jsonOfGoSlice : Option (List Booking) → String
  | none => "null"
  | some l => "[" ++ String.intercalate "," (l.map jsonOfBooking) ++ "]"

/-- `List` (handler.go:164-181): default the namespace query parameter to
`"argocd"`, call `ListBookings`, replace a nil slice by the empty slice, and
write it as JSON with status 200.  (The model's store never fails, so the
500 branch is out of scope here.) -/
def listHandler (st : Store) (nsQuery : String) : Nat × String :=
  let ns := if nsQuery = "" then "argocd" else nsQuery
  let bookings := ListBookings st ns
  let bookings := if bookings.isNone then some [] else bookings
  (200, jsonOfGoSlice bookings)

/-! ## Observation helpers and concrete stores used by the theorems -/

/-- The stored value of one annotation of the Application `(ns, n)`
(`""` when the object, the map or the key is absent). -/
def annOf (st : Store) (ns n key : String) : String :=
  match getApp st ns n with
  | none => ""
  | some a => annLookup (a.anns.getD []) key

/-- The holder annotation of one Application object. -/
def appHolder (a : K8sApp) : String :=
  match a.anns with
  | none => ""
  | some m => annLookup m AnnBookedBy

/-- The booked-at annotation of one Application object. -/
def appBookedAt (a : K8sApp) : String :=
  match a.anns with
  | none => ""
  | some m => annLookup m AnnBookedAt

/-- The elements of a Go slice (nil and empty both have none). -/
def goSliceList : Option (List Booking) → List Booking
  | none => []
  | some l => l

/-- One unlocked Application `argocd/my-app` (no annotations at all). -/
def unlockedStore : Store := [⟨"my-app", "argocd", none⟩]

/-- `argocd/my-app` booked by alice, with a well-formed timestamp. -/
def heldStore : Store :=
  [⟨"my-app", "argocd", some [(AnnBookedBy, "alice"), (AnnBookedAt, "2026-01-15T10:00:00Z")]⟩]

/-- `argocd/my-app` with a holder annotation but no booked-at annotation. -/
def heldNoTsStore : Store := [⟨"my-app", "argocd", some [(AnnBookedBy, "alice")]⟩]

/-! ## Association-list and store lemmas -/

theorem annLookup_annSet_self (m : AnnMap) (k v : String) :
    annLookup (annSet m k v) k = v := by
  induction m with
  | nil => simp [annSet, annLookup]
  | cons p rest ih =>
    by_cases h : p.1 = k
    · simp [annSet, annLookup, h]
    · simp [annSet, annLookup, h, ih]

theorem annLookup_annSet_ne (m : AnnMap) (k k' v : String) (h : k' ≠ k) :
    annLookup (annSet m k v) k' = annLookup m k' := by
  induction m with
  | nil => simp [annSet, annLookup, Ne.symm h]
  | cons p rest ih =>
    by_cases hp : p.1 = k
    · subst hp
      simp [annSet, annLookup, Ne.symm h, ih]
    · by_cases hp' : p.1 = k'
      · simp [annSet, annLookup, hp, hp', h]
      · simp [annSet, annLookup, hp, hp', ih]

theorem annLookup_annRemove_self (m : AnnMap) (k : String) :
    annLookup (annRemove m k) k = "" := by
  induction m with
  | nil => rfl
  | cons p rest ih =>
    by_cases h : p.1 = k
    · simp [annRemove, h, ih]
    · simp [annRemove, annLookup, h, ih]

theorem annLookup_annRemove_ne (m : AnnMap) (k k' : String) (h : k' ≠ k) :
    annLookup (annRemove m k) k' = annLookup m k' := by
  induction m with
  | nil => rfl
  | cons p rest ih =>
    by_cases hp : p.1 = k
    · subst hp
      simp [annRemove, annLookup, Ne.symm h, ih]
    · by_cases hp' : p.1 = k'
      · simp [annRemove, annLookup, hp, hp', h]
      · simp [annRemove, annLookup, hp, hp', ih]

theorem getApp_patchApp_self (st : Store) (ns n : String) (f : Option AnnMap → Option AnnMap) :
    getApp (patchApp st ns n f) ns n =
      (getApp st ns n).map (fun a => ⟨a.name, a.ns, f a.anns⟩) := by
  induction st with
  | nil => rfl
  | cons a rest ih =>
    by_cases h : a.ns = ns ∧ a.name = n
    · simp [patchApp, getApp, h]
    · have hrest : patchApp (a :: rest) ns n f = a :: patchApp rest ns n f := by
        simp [patchApp, h]
      rw [hrest]
      simp [getApp, h, ih]

/-! ## Claim theorems: coordinator -/

/-- C1: for a resource that exists and is currently Unlocked (no holder
metadata), `BookApp` by any non-empty caller succeeds, issues exactly one
metadata patch writing the holder and acquired-at fields, and an immediately
following `GetBookingStatus` returns the caller together with the timestamp
string written by the acquire (`now` models the RFC3339-formatted
`time.Now().UTC()` captured during the call, so the returned time lies in
the acquire's execution window).  Non-emptiness of the caller is the API
layer's precondition: an empty username header is rejected with 400 before
the coordinator runs. -/
theorem BookApp_unlocked_acquires (st : Store) (ns app u now : String)
    (hU : GetBookingStatus st ns app = .ok ("", ""))
    (hu : u ≠ "") :
    (BookApp st ns app u now).result = .ok () ∧
    (BookApp st ns app u now).patchCount = 1 ∧
    GetBookingStatus (BookApp st ns app u now).store ns app = .ok (u, now) := by
  have hbyat : AnnBookedBy ≠ AnnBookedAt := by decide
  have h0 : ¬("" = u) := fun h => hu h.symm
  have hBook : BookApp st ns app u now =
      ⟨.ok (),
       patchApp st ns app
         (fun anns => some (annSet (annSet (anns.getD []) AnnBookedBy u) AnnBookedAt now)),
       1⟩ := by
    simp [BookApp, hU, h0]
  cases hg : getApp st ns app with
  | none => simp [GetBookingStatus, hg] at hU
  | some a =>
    refine ⟨by rw [hBook], by rw [hBook], ?_⟩
    rw [hBook]
    simp only [GetBookingStatus, getApp_patchApp_self, hg, Option.map_some']
    simp [annLookup_annSet_self, annLookup_annSet_ne _ _ _ _ hbyat, hu]

theorem BookApp_unlocked_acquires_witness :
    (BookApp unlockedStore "argocd" "my-app" "alice" "2026-02-01T09:00:00Z").result = .ok () ∧
    (BookApp unlockedStore "argocd" "my-app" "alice" "2026-02-01T09:00:00Z").patchCount = 1 ∧
    GetBookingStatus (BookApp unlockedStore "argocd" "my-app" "alice" "2026-02-01T09:00:00Z").store
      "argocd" "my-app" = .ok ("alice", "2026-02-01T09:00:00Z") :=
  BookApp_unlocked_acquires unlockedStore "argocd" "my-app" "alice" "2026-02-01T09:00:00Z"
    (by decide) (by decide)

/-- C2: for a resource Held by `u1` and a different caller `u2`, `BookApp`
returns the conflict error carrying the current holder's identity (whose
message interpolates `u1`), issues no write, and leaves the store — hence
the Held state — unchanged. -/
theorem BookApp_held_other_conflict (st : Store) (ns app u1 u2 t now : String)
    (hH : GetBookingStatus st ns app = .ok (u1, t))
    (hu1 : u1 ≠ "") (hne : u2 ≠ u1) :
    BookApp st ns app u2 now = ⟨.error (.conflict u1), st, 0⟩ ∧
    errString (.conflict u1) = "conflict: application already booked by " ++ u1 := by
  exact ⟨by simp [BookApp, hH, hu1, Ne.symm hne], rfl⟩

theorem BookApp_held_other_conflict_witness :
    BookApp heldStore "argocd" "my-app" "bob" "2026-02-01T09:00:00Z" =
      ⟨.error (.conflict "alice"), heldStore, 0⟩ ∧
    errString (.conflict "alice") = "conflict: application already booked by " ++ "alice" :=
  BookApp_held_other_conflict heldStore "argocd" "my-app" "alice" "bob"
    "2026-01-15T10:00:00Z" "2026-02-01T09:00:00Z" (by decide) (by decide) (by decide)

/-- C3: re-acquiring a resource one already holds succeeds as a no-op: the
call returns `nil` and the holder observed afterwards is unchanged. -/
theorem BookApp_held_self_noop (st : Store) (ns app u t now : String)
    (hH : GetBookingStatus st ns app = .ok (u, t)) (hu : u ≠ "") :
    (BookApp st ns app u now).result = .ok () ∧
    GetBookingStatus (BookApp st ns app u now).store ns app = .ok (u, t) := by
  have hBook : BookApp st ns app u now = ⟨.ok (), st, 0⟩ := by
    simp [BookApp, hH]
  exact ⟨by rw [hBook], by rw [hBook]; exact hH⟩

theorem BookApp_held_self_noop_witness :
    (BookApp heldStore "argocd" "my-app" "alice" "2026-02-01T09:00:00Z").result = .ok () ∧
    GetBookingStatus (BookApp heldStore "argocd" "my-app" "alice" "2026-02-01T09:00:00Z").store
      "argocd" "my-app" = .ok ("alice", "2026-01-15T10:00:00Z") :=
  BookApp_held_self_noop heldStore "argocd" "my-app" "alice" "2026-01-15T10:00:00Z"
    "2026-02-01T09:00:00Z" (by decide) (by decide)

/-- C9: re-acquire by the current holder performs no patch at all: the store
is returned untouched, so the acquired-at annotation keeps its original
value and every other piece of resource metadata is untouched. -/
theorem BookApp_held_self_no_patch (st : Store) (ns app u t now : String)
    (hH : GetBookingStatus st ns app = .ok (u, t)) (hu : u ≠ "") :
    (BookApp st ns app u now).patchCount = 0 ∧
    (BookApp st ns app u now).store = st ∧
    annOf (BookApp st ns app u now).store ns app AnnBookedAt = annOf st ns app AnnBookedAt := by
  have hBook : BookApp st ns app u now = ⟨.ok (), st, 0⟩ := by
    simp [BookApp, hH]
  exact ⟨by rw [hBook], by rw [hBook], by rw [hBook]⟩

theorem BookApp_held_self_no_patch_witness :
    (BookApp heldStore "argocd" "my-app" "alice" "2026-02-01T09:00:00Z").patchCount = 0 ∧
    (BookApp heldStore "argocd" "my-app" "alice" "2026-02-01T09:00:00Z").store = heldStore ∧
    annOf (BookApp heldStore "argocd" "my-app" "alice" "2026-02-01T09:00:00Z").store
        "argocd" "my-app" AnnBookedAt =
      annOf heldStore "argocd" "my-app" AnnBookedAt :=
  BookApp_held_self_no_patch heldStore "argocd" "my-app" "alice" "2026-01-15T10:00:00Z"
    "2026-02-01T09:00:00Z" (by decide) (by decide)

/-- C4: releasing a Held resource succeeds and clears both booking
annotations together when the caller is the holder or is privileged;
otherwise it fails with the forbidden error carrying the holder's identity,
with no write and an unchanged store. -/
theorem UnbookApp_held_auth (st : Store) (ns app u1 u2 t : String) (admin : Bool)
    (hH : GetBookingStatus st ns app = .ok (u1, t)) (hu1 : u1 ≠ "") :
    ((u2 = u1 ∨ admin = true) →
      (UnbookApp st ns app u2 admin).result = .ok () ∧
      GetBookingStatus (UnbookApp st ns app u2 admin).store ns app = .ok ("", "") ∧
      annOf (UnbookApp st ns app u2 admin).store ns app AnnBookedBy = "" ∧
      annOf (UnbookApp st ns app u2 admin).store ns app AnnBookedAt = "") ∧
    ((u2 ≠ u1 ∧ admin = false) →
      UnbookApp st ns app u2 admin = ⟨.error (.forbidden u1), st, 0⟩ ∧
      errString (.forbidden u1) =
        "forbidden: application is booked by " ++ u1 ++ ", only they or an admin can unbook") := by
  have hbyat : AnnBookedBy ≠ AnnBookedAt := by decide
  constructor
  · intro hcase
    have hcond : ¬(u1 ≠ u2 ∧ admin = false) := by
      rcases hcase with h | h
      · subst h; simp
      · simp [h]
    have hUn : UnbookApp st ns app u2 admin =
        ⟨.ok (),
         patchApp st ns app
           (fun anns => some (annRemove (annRemove (anns.getD []) AnnBookedBy) AnnBookedAt)),
         1⟩ := by
      simp [UnbookApp, hH, hu1, hcond]
    cases hg : getApp st ns app with
    | none => simp [GetBookingStatus, hg] at hH
    | some a =>
      refine ⟨by rw [hUn], ?_, ?_, ?_⟩
      · rw [hUn]
        simp only [GetBookingStatus, getApp_patchApp_self, hg, Option.map_some']
        simp [annLookup_annRemove_self, annLookup_annRemove_ne _ _ _ hbyat]
      · rw [hUn]
        simp only [annOf, getApp_patchApp_self, hg, Option.map_some']
        simp [annLookup_annRemove_self, annLookup_annRemove_ne _ _ _ hbyat]
      · rw [hUn]
        simp only [annOf, getApp_patchApp_self, hg, Option.map_some']
        simp [annLookup_annRemove_self]
  · intro hcase
    exact ⟨by simp [UnbookApp, hH, hu1, Ne.symm hcase.1, hcase.2], rfl⟩

theorem UnbookApp_held_auth_witness :
    (UnbookApp heldStore "argocd" "my-app" "bob" true).result = .ok () ∧
    GetBookingStatus (UnbookApp heldStore "argocd" "my-app" "bob" true).store
      "argocd" "my-app" = .ok ("", "") ∧
    annOf (UnbookApp heldStore "argocd" "my-app" "bob" true).store
      "argocd" "my-app" AnnBookedBy = "" ∧
    annOf (UnbookApp heldStore "argocd" "my-app" "bob" true).store
      "argocd" "my-app" AnnBookedAt = "" :=
  (UnbookApp_held_auth heldStore "argocd" "my-app" "alice" "bob" "2026-01-15T10:00:00Z" true
    (by decide) (by decide)).1 (Or.inr rfl)

/-- C5: releasing an already-Unlocked resource is a no-op that succeeds for
every caller and every privilege value, with no write and an unchanged
store. -/
theorem UnbookApp_unlocked_noop (st : Store) (ns app u : String) (admin : Bool)
    (hU : GetBookingStatus st ns app = .ok ("", "")) :
    UnbookApp st ns app u admin = ⟨.ok (), st, 0⟩ := by
  simp [UnbookApp, hU]

theorem UnbookApp_unlocked_noop_witness :
    UnbookApp unlockedStore "argocd" "my-app" "zed" false = ⟨.ok (), unlockedStore, 0⟩ :=
  UnbookApp_unlocked_noop unlockedStore "argocd" "my-app" "zed" false (by decide)

/-- C6 (counterexample): a resource whose metadata carries a holder but no
acquired-at annotation is *not* treated as unlocked-equivalent for
authorization: `BookApp` by a different caller does fail with the conflict
error, and `UnbookApp` by a non-holder, non-privileged caller does fail with
the forbidden error. -/
theorem missing_timestamp_counterexample :
    (BookApp heldNoTsStore "argocd" "my-app" "bob" "2026-02-01T09:00:00Z").result =
      .error (.conflict "alice") ∧
    (UnbookApp heldNoTsStore "argocd" "my-app" "bob" false).result =
      .error (.forbidden "alice") := by decide

/-- C6 (amended): the authorization decisions ignore the acquired-at
annotation entirely; a holder annotation alone — with a missing, empty or
unparseable timestamp — makes the resource Held for authorization purposes:
acquire by a different caller fails with Conflict, and release by a
non-holder, non-privileged caller fails with Forbidden. -/
theorem holder_without_timestamp_is_held (st : Store) (ns app u1 u2 t now : String)
    (hH : GetBookingStatus st ns app = .ok (u1, t))
    (hu1 : u1 ≠ "") (hne : u2 ≠ u1) :
    (BookApp st ns app u2 now).result = .error (.conflict u1) ∧
    (UnbookApp st ns app u2 false).result = .error (.forbidden u1) := by
  constructor
  · simp [BookApp, hH, hu1, Ne.symm hne]
  · simp [UnbookApp, hH, hu1, Ne.symm hne]

theorem holder_without_timestamp_is_held_witness :
    (BookApp heldNoTsStore "argocd" "my-app" "carol" "2026-02-01T09:00:00Z").result =
      .error (.conflict "alice") ∧
    (UnbookApp heldNoTsStore "argocd" "my-app" "carol" false).result =
      .error (.forbidden "alice") :=
  holder_without_timestamp_is_held heldNoTsStore "argocd" "my-app" "alice" "carol" ""
    "2026-02-01T09:00:00Z" (by decide) (by decide) (by decide)

/-! ## Claim theorems: listing -/

theorem goSliceList_goAppend (s : Option (List Booking)) (b : Booking) :
    goSliceList (goAppend s b) = goSliceList s ++ [b] := by
  cases s <;> rfl

theorem listBookings_foldl (l : List K8sApp) (acc : Option (List Booking)) :
    goSliceList (l.foldl
      (fun acc item =>
        match extractBooking item with
        | some b => goAppend acc b
        | none => acc) acc) =
    goSliceList acc ++ l.filterMap extractBooking := by
  induction l generalizing acc with
  | nil => simp
  | cons a l ih =>
    cases he : extractBooking a with
    | none => simp [List.foldl_cons, he, ih, List.filterMap_cons]
    | some b => simp [List.foldl_cons, he, ih, List.filterMap_cons, goSliceList_goAppend]

theorem extractBooking_eq_some (a : K8sApp) (b : Booking) :
    extractBooking a = some b ↔
      appHolder a ≠ "" ∧ b = ⟨a.name, a.ns, appHolder a, appBookedAt a⟩ := by
  cases ha : a.anns with
  | none => simp [extractBooking, ha, appHolder]
  | some m =>
    by_cases h : annLookup m AnnBookedBy = ""
    · simp [extractBooking, ha, appHolder, h]
    · simp [extractBooking, ha, appHolder, appBookedAt, h, eq_comm]

/-- C7: `ListBookings` returns exactly the Held resources of the namespace:
a booking record is in the returned slice exactly when some stored
Application of that namespace carries a non-empty holder annotation, and the
record then consists of that Application's name, namespace, holder and
booked-at annotations.  Applications with nil annotations or an empty/absent
holder annotation never contribute a record. -/
theorem ListBookings_exactly_held (st : Store) (ns : String) (b : Booking) :
    b ∈ goSliceList (ListBookings st ns) ↔
      ∃ a, a ∈ st ∧ a.ns = ns ∧ appHolder a ≠ "" ∧
        b = ⟨a.name, a.ns, appHolder a, appBookedAt a⟩ := by
  unfold ListBookings
  rw [listBookings_foldl]
  simp only [goSliceList, List.nil_append, List.mem_filterMap, List.mem_filter,
    extractBooking_eq_some, beq_iff_eq]
  constructor
  · rintro ⟨a, ⟨ha, hns⟩, hh, hb⟩
    exact ⟨a, ha, hns, hh, hb⟩
  · rintro ⟨a, ha, hns, hh, hb⟩
    exact ⟨a, ⟨ha, hns⟩, hh, hb⟩

/-! ## Claim theorems: HTTP layer -/

theorem splitFirstColon_eq_none (l : List Char) :
    splitFirstColon l = none ↔ ':' ∉ l := by
  induction l with
  | nil => simp [splitFirstColon]
  | cons c rest ih =>
    by_cases h : c = ':'
    · subst h
      simp [splitFirstColon]
    · cases hs : splitFirstColon rest with
      | none =>
        have h1 : ':' ∉ rest := ih.mp hs
        simp only [splitFirstColon, if_neg h, hs]
        simp [List.mem_cons, h1, Ne.symm h]
      | some p =>
        have h3 : ':' ∈ rest := by
          by_contra hc
          have := ih.mpr hc
          rw [this] at hs
          exact Option.noConfusion hs
        simp only [splitFirstColon, if_neg h, hs]
        simp [List.mem_cons, h3]

theorem splitFirstColon_append (a b : List Char) (h : ':' ∉ a) :
    splitFirstColon (a ++ ':' :: b) = some (a, b) := by
  induction a with
  | nil => simp [splitFirstColon]
  | cons c rest ih =>
    have hc : ¬(c = ':') := fun hh => h (by simp [hh])
    have hr : ':' ∉ rest := fun hh => h (List.mem_cons_of_mem _ hh)
    simp [splitFirstColon, hc, ih hr]

/-- C8: a request to `/api/status`, `/api/book` or `/api/unbook` is answered
with 400 exactly when the `Argocd-Application-Name` header fails to parse —
absent (`""`), colon-free, or with an empty part around the first colon — or,
for book/unbook only, when the `Argocd-Username` header is absent; and in
every 400 case the k8s client is never invoked.  The last three conjuncts
characterize `parseAppHeader`: the empty and colon-free header values are
rejected, and a value `scope ++ ":" ++ name` (scope colon-free) parses to
`(scope, name)` exactly when both parts are non-empty. -/
theorem handlers_badRequest_iff (st : Store) (r : HttpReq) (now : String) :
    ((statusHandler st r).status = 400 ↔ parseAppHeader r.appHeader = none) ∧
    ((statusHandler st r).status = 400 → (statusHandler st r).clientCalled = false) ∧
    ((bookHandler st r now).status = 400 ↔
      (parseAppHeader r.appHeader = none ∨ r.userHeader = "")) ∧
    ((bookHandler st r now).status = 400 → (bookHandler st r now).clientCalled = false) ∧
    ((unbookHandler st r).status = 400 ↔
      (parseAppHeader r.appHeader = none ∨ r.userHeader = "")) ∧
    ((unbookHandler st r).status = 400 → (unbookHandler st r).clientCalled = false) ∧
    (parseAppHeader "" = none) ∧
    (∀ l : List Char, ':' ∉ l → parseAppHeader (String.mk l) = none) ∧
    (∀ a b : List Char, ':' ∉ a →
      parseAppHeader (String.mk (a ++ ':' :: b)) =
        if a = [] ∨ b = [] then none else some (String.mk a, String.mk b)) := by
  refine ⟨?_, ?_, ?_, ?_, ?_, ?_, ?_, ?_, ?_⟩
  · cases hp : parseAppHeader r.appHeader with
    | none => simp [statusHandler, hp]
    | some p =>
      simp only [statusHandler, hp]
      cases GetBookingStatus st p.1 p.2 <;> simp
  · cases hp : parseAppHeader r.appHeader with
    | none => simp [statusHandler, hp]
    | some p =>
      simp only [statusHandler, hp]
      cases GetBookingStatus st p.1 p.2 <;> simp
  · cases hp : parseAppHeader r.appHeader with
    | none => simp [bookHandler, hp]
    | some p =>
      simp only [bookHandler, hp]
      by_cases hu : r.userHeader = ""
      · simp [hu, hp]
      · simp only [if_neg hu]
        cases (BookApp st p.1 p.2 r.userHeader now).result with
        | error e => by_cases hce : goContains (errString e) "conflict:" = true <;>
            simp [hce, hp, hu]
        | ok v => simp [hp, hu]
  · cases hp : parseAppHeader r.appHeader with
    | none => simp [bookHandler, hp]
    | some p =>
      simp only [bookHandler, hp]
      by_cases hu : r.userHeader = ""
      · simp [hu]
      · simp only [if_neg hu]
        cases (BookApp st p.1 p.2 r.userHeader now).result with
        | error e => by_cases hce : goContains (errString e) "conflict:" = true <;>
            simp [hce]
        | ok v => simp
  · cases hp : parseAppHeader r.appHeader with
    | none => simp [unbookHandler, hp]
    | some p =>
      simp only [unbookHandler, hp]
      by_cases hu : r.userHeader = ""
      · simp [hu, hp]
      · simp only [if_neg hu]
        cases (UnbookApp st p.1 p.2 r.userHeader (isAdminReq r.groupsHeader)).result with
        | error e => by_cases hce : goContains (errString e) "forbidden:" = true <;>
            simp [hce, hp, hu]
        | ok v => simp [hp, hu]
  · cases hp : parseAppHeader r.appHeader with
    | none => simp [unbookHandler, hp]
    | some p =>
      simp only [unbookHandler, hp]
      by_cases hu : r.userHeader = ""
      · simp [hu]
      · simp only [if_neg hu]
        cases (UnbookApp st p.1 p.2 r.userHeader (isAdminReq r.groupsHeader)).result with
        | error e => by_cases hce : goContains (errString e) "forbidden:" = true <;>
            simp [hce]
        | ok v => simp
  · rfl
  · intro l hl
    by_cases h0 : l = []
    · subst h0
      rfl
    · simp [parseAppHeader, h0, (splitFirstColon_eq_none l).mpr hl]
  · intro a b ha
    have hne : a ++ ':' :: b ≠ [] := by simp
    simp [parseAppHeader, hne, splitFirstColon_append a b ha]

theorem handlers_badRequest_iff_witness :
    parseAppHeader (String.mk (['n', 's'] ++ ':' :: ['a', 'p'])) =
      (if (['n', 's'] : List Char) = [] ∨ (['a', 'p'] : List Char) = [] then none
       else some (String.mk ['n', 's'], String.mk ['a', 'p'])) :=
  (handlers_badRequest_iff [] ⟨"", "", ""⟩ "").2.2.2.2.2.2.2.2 ['n', 's'] ['a', 'p'] (by decide)

theorem bracket_ne_null (s t : String) : ("[" ++ s ++ t) ≠ "null" := by
  intro h
  have hd : ("[" ++ s ++ t).data = "null".data := congrArg String.data h
  have h2 : '[' :: (s.data ++ t.data) = ['n', 'u', 'l', 'l'] := hd
  rw [List.cons.injEq] at h2
  exact absurd h2.1 (by decide)

/-- C10: when `ListBookings` succeeds with zero held resources (the nil
slice), the `/api/list` handler responds 200 with the JSON body `[]`; and
its body is never the JSON value `null`, because a nil slice is replaced by
the empty slice before encoding. -/
theorem List_handler_empty_array (st : Store) (q : String) :
    ((ListBookings st (if q = "" then "argocd" else q) = none) →
      listHandler st q = (200, "[]")) ∧
    (listHandler st q).2 ≠ "null" := by
  constructor
  · intro h
    simp only [listHandler, h, jsonOfGoSlice, Option.isNone_none, if_pos, List.map_nil]
    decide
  · cases hb : ListBookings st (if q = "" then "argocd" else q) with
    | none =>
      simp only [listHandler, hb, jsonOfGoSlice, Option.isNone_none, if_pos, List.map_nil]
      decide
    | some l =>
      have hbody : (listHandler st q).2 =
          "[" ++ String.intercalate "," (l.map jsonOfBooking) ++ "]" := by
        simp [listHandler, hb, jsonOfGoSlice]
      rw [hbody]
      exact bracket_ne_null _ _

theorem List_handler_empty_array_witness :
    listHandler unlockedStore "" = (200, "[]") :=
  (List_handler_empty_array unlockedStore "").1 (by decide)

end ArgoBook
